import Mathlib

/-!
Shallow embedding of the PLATON transit-depth forward model
(`transit_depth_calculator.py`, `platon/_atmosphere_solver.py`,
`abundance_getter.py`, `fit_info.py`, `retrieve.py`).

Python floats are modelled as exact rationals.  Transcendental library
functions (`np.exp`, `np.sqrt`, the scipy interpolators on irrational
log-scales) are modelled as explicit function parameters threaded through
the definitions, so every definition stays executable; the theorems
quantify over those parameters, so they hold for any implementation of
the library functions.  `np.inf` arguments are modelled as `Option ℚ`
with `none` standing for infinity.
-/

namespace Platon

/-- Boltzmann constant `k_B` from `constants.py` (J/K), as an exact rational. -/
def k_B : ℚ := 1380649 / 10 ^ 29

/-- Atomic mass unit `amu` from `constants.py` (kg), as an exact rational. -/
def amu : ℚ := 166053906892 / 10 ^ 38

/-- Boolean-mask selection `xs[mask]` (numpy fancy indexing). -/
def maskSelect (xs : List ℚ) (mask : List Bool) : List ℚ :=
  ((xs.zip mask).filter (fun p => p.2)).map (fun p => p.1)

/-- Dot product `xs.dot(ys)` of two vectors (numpy `dot`). -/
def dotProduct (xs ys : List ℚ) : ℚ :=
  (List.zipWith (fun a b => a * b) xs ys).sum

/-- Running prefix sums, `np.cumsum`: `cumsum [a,b,c] = [a, a+b, a+b+c]`. -/
def cumsum : List ℚ → List ℚ
  | [] => []
  | x :: xs => x :: (cumsum xs).map (fun c => x + c)

/-- Arithmetic mean `np.mean` of a list (empty list handled by `ℚ` division by zero,
standing in for numpy's NaN, which never arises in the verified calls). -/
def mean (xs : List ℚ) : ℚ := xs.sum / xs.length

/-- Embeds `np.min` of a nonempty list (0 on the empty list, which numpy rejects). -/
def listMin : List ℚ → ℚ
  | [] => 0
  | x :: xs => xs.foldl min x

/-- Embeds `np.max` of a nonempty list (0 on the empty list, which numpy rejects). -/
def listMax : List ℚ → ℚ
  | [] => 0
  | x :: xs => xs.foldl max x

/-! ## Atmospheric structure solver
`TransitDepthCalculator.get_above_cloud_r_and_dr` (transit_depth_calculator.py,
lines 95-110).  The mean-molecular-weight profile `mu` is produced there by a
scipy `RectBivariateSpline` over the abundance tables; the spline is an external
library routine, so `mu` enters the embedding directly as the per-layer profile
it evaluates to. -/

/-- The tail of the layer-thickness array:
`dr = dP/P[1:] * k_B*T[1:] / (mu[1:] * amu * g)` (line 103). -/
def drTail (g : ℚ) : List ℚ → List ℚ → List ℚ → List ℚ
  | p0 :: p1 :: ps, _t0 :: t1 :: ts, _m0 :: m1 :: ms =>
      (p1 - p0) / p1 * k_B * t1 / (m1 * amu * g) :: drTail g (p1 :: ps) (t1 :: ts) (m1 :: ms)
  | _, _, _ => []

/-- Full layer-thickness array: the scale-height term `k_B*T[0]/(mu[0]*amu*g)`
prepended to `drTail` (line 104). -/
def compute_dr (g : ℚ) (P T mu : List ℚ) : List ℚ :=
  match P, T, mu with
  | _ :: _, t0 :: _, m0 :: _ => k_B * t0 / (m0 * amu * g) :: drTail g P T mu
  | _, _, _ => []

/-- Embeds `get_above_cloud_r_and_dr` (lines 95-110): radii are the total atmosphere
radius minus cumulative thickness, the above-cloud mask is applied to the radii,
and the top radius is prepended; `dr` is returned unmasked (the caller masks it). -/
def get_above_cloud_r_and_dr (g planet_radius : ℚ) (P T mu : List ℚ)
    (mask : List Bool) : List ℚ × List ℚ :=
  let dr := compute_dr g P T mu
  let radius_with_atm := dr.sum + planet_radius
  let radii := (cumsum dr).map (fun c => radius_with_atm - c)
  (radius_with_atm :: maskSelect radii mask, dr)

/-! ## Line-of-sight optical depth and transit-depth compilation
`compute_depths` lines 138-144 of transit_depth_calculator.py. -/

/-- Modelled from the spec: `tau_calculator.get_line_of_sight_tau` is not under
src/.  Per spec section 4.5, for the ray at layer i's impact parameter
(`radii[i+1]`), the slant optical depth sums, over shells j at or below layer i,
the absorption coefficient times the chord path length
`2*(sqrt(r_j^2 - b^2) - sqrt(r_{j+1}^2 - b^2))`.  `S` models `np.sqrt`;
one wavelength at a time (`absorb` has one entry per layer). -/
def get_line_of_sight_tau (S : ℚ → ℚ) (absorb : List ℚ) (radii : List ℚ) : List ℚ :=
  let n := radii.length - 1
  (List.range n).map (fun i =>
    (((List.range n).drop i).map (fun j =>
      absorb.getD j 0 *
        (2 * (S ((radii.getD j 0) ^ 2 - (radii.getD (i + 1) 0) ^ 2)
            - S ((radii.getD (j + 1) 0) ^ 2 - (radii.getD (i + 1) 0) ^ 2))))).sum)

/-- Lines 140-144: per wavelength row,
`depth = (planet_radius/star_radius)**2
       + 2/star_radius**2 * (1 - np.exp(-tau_los)).dot(radii[1:] * dr)`.
`E` models `np.exp`; `r` is `radii[1:]`. -/
def depths_from_tau (E : ℚ → ℚ) (planet_radius star_radius : ℚ)
    (tau_rows : List (List ℚ)) (r dr : List ℚ) : List ℚ :=
  tau_rows.map (fun row =>
    (planet_radius / star_radius) ^ 2 +
      2 / star_radius ^ 2 *
        dotProduct (row.map (fun t => 1 - E (-t))) (List.zipWith (fun a b => a * b) r dr))

/-- Lines 138-144 as one stage: the interpolated absorption-coefficient rows
(one per wavelength) are turned into optical depths and then transit depths. -/
def depths_from_absorption (E S : ℚ → ℚ) (planet_radius star_radius : ℚ)
    (coeff_rows : List (List ℚ)) (radii dr : List ℚ) : List ℚ :=
  depths_from_tau E planet_radius star_radius
    (coeff_rows.map (fun row => get_line_of_sight_tau S row radii)) radii.tail dr

/-- The transit-depth formula exactly as the spec states it (section 4.6):
`depth = (R_p/R_s)^2 + (2/R_s^2) * sum over layers of
(1 - exp(-tau(layer))) * r(layer) * dr(layer)`, for one wavelength. -/
def spec_depth_formula (E : ℚ → ℚ) (planet_radius star_radius : ℚ)
    (tau r dr : List ℚ) : ℚ :=
  (planet_radius / star_radius) ^ 2 +
    2 / star_radius ^ 2 *
      ((tau.zip (r.zip dr)).map (fun p => (1 - E (-p.1)) * (p.2.1 * p.2.2))).sum

/-! ## Wavelength binning of the output spectrum
`compute_depths` lines 148-157. -/

/-- Line 152: `np.logical_and(lambda_grid >= start, lambda_grid < end)` —
the half-open selection of native wavelengths inside a bin. -/
def bin_cond (grid : List ℚ) (s e : ℚ) : List Bool :=
  grid.map (fun l => decide (s ≤ l ∧ l < e))

/-- Lines 150-155: per bin, the reported wavelength is `np.mean` of the selected
native wavelengths and the reported depth is `np.mean` of the selected depths. -/
def bin_output (grid depths : List ℚ) (bins : List (ℚ × ℚ)) : List ℚ × List ℚ :=
  (bins.map (fun b => mean (maskSelect grid (bin_cond grid b.1 b.2))),
   bins.map (fun b => mean (maskSelect depths (bin_cond grid b.1 b.2))))

/-- The (wavelength, depth) pairs contributing to a bin, as the spec words it:
native grid points whose wavelength lies in the half-open interval `[start, end)`. -/
def binContrib (grid depths : List ℚ) (s e : ℚ) : List (ℚ × ℚ) :=
  (grid.zip depths).filter (fun p => decide (s ≤ p.1 ∧ p.1 < e))

/-- Spec section 4.6: the reported wavelength of a bin is the arithmetic mean of
the contributing native grid wavelengths. -/
def specBinWavelength (grid depths : List ℚ) (s e : ℚ) : ℚ :=
  mean ((binContrib grid depths s e).map (fun p => p.1))

/-- Spec section 4.6: the depth of a bin is the arithmetic mean of the
native-grid depths whose wavelength falls within the bin. -/
def specBinDepth (grid depths : List ℚ) (s e : ℚ) : ℚ :=
  mean ((binContrib grid depths s e).map (fun p => p.2))

/-! ## The full `compute_depths` pipeline
(transit_depth_calculator.py, lines 112-157).  The pieces living in modules not
under src/ (`interpolator_3D.get_condition_array`, `interpolator_3D.fast_interpolate`)
and the table-driven opacity synthesis of lines 132-134 (whose argument lists in
src show they receive only the condition arrays, never the cloud-top pressure)
enter as universally quantified function parameters `cond_fn`, `interp_fn`,
`absorb_fn`. -/

/-- Line 123: `above_clouds = P < cloudtop_pressure`, with `np.inf` as `none`
(every finite pressure is below an infinite cloud top). -/
def above_clouds (P : List ℚ) (cloudtop : Option ℚ) : List Bool :=
  P.map (fun p =>
    match cloudtop with
    | none => true
    | some c => decide (p < c))

/-- Embeds `compute_depths` (lines 112-157).  `cond_fn` models
`interpolator_3D.get_condition_array` (its optional pressure limit is the
cloud-top pressure, `none` for `np.inf`); `absorb_fn` models the sum of
`get_gas_absorption`, scattering and collisional absorption at given condition
arrays; `interp_fn` models `interpolator_3D.fast_interpolate`. -/
def compute_depths (E S : ℚ → ℚ)
    (cond_fn : List ℚ → List ℚ → Option ℚ → List Bool)
    (absorb_fn : List Bool → List Bool → List (List ℚ))
    (interp_fn : List (List ℚ) → List ℚ → List ℚ → List ℚ → List ℚ → List (List ℚ))
    (star_radius g : ℚ) (lambda_grid P_grid T_grid : List ℚ)
    (bins : Option (List (ℚ × ℚ)))
    (planet_radius : ℚ) (P T mu : List ℚ)
    (cloudtop : Option ℚ) : List ℚ × List ℚ :=
  let above := above_clouds P cloudtop
  let rd := get_above_cloud_r_and_dr g planet_radius P T mu above
  let P2 := maskSelect P above
  let T2 := maskSelect T above
  let dr2 := maskSelect rd.2 above
  let T_cond := cond_fn T2 T_grid none
  let P_cond := cond_fn P2 P_grid cloudtop
  let coeff := absorb_fn P_cond T_cond
  let coeff_atm := interp_fn coeff (maskSelect T_grid T_cond) (maskSelect P_grid P_cond) T2 P2
  let depths := depths_from_absorption E S planet_radius star_radius coeff_atm rd.1 dr2
  match bins with
  | some bs => bin_output lambda_grid depths bs
  | none => (lambda_grid, depths)

/-- The same pipeline with the cloud machinery removed (clouds disabled): no
layer is masked away and no pressure limit is passed to the condition array. -/
def compute_depths_no_clouds (E S : ℚ → ℚ)
    (cond_fn : List ℚ → List ℚ → Option ℚ → List Bool)
    (absorb_fn : List Bool → List Bool → List (List ℚ))
    (interp_fn : List (List ℚ) → List ℚ → List ℚ → List ℚ → List ℚ → List (List ℚ))
    (star_radius g : ℚ) (lambda_grid P_grid T_grid : List ℚ)
    (bins : Option (List (ℚ × ℚ)))
    (planet_radius : ℚ) (P T mu : List ℚ) : List ℚ × List ℚ :=
  let dr := compute_dr g P T mu
  let radius_with_atm := dr.sum + planet_radius
  let radii := radius_with_atm :: (cumsum dr).map (fun c => radius_with_atm - c)
  let T_cond := cond_fn T T_grid none
  let P_cond := cond_fn P P_grid none
  let coeff := absorb_fn P_cond T_cond
  let coeff_atm := interp_fn coeff (maskSelect T_grid T_cond) (maskSelect P_grid P_cond) T P
  let depths := depths_from_absorption E S planet_radius star_radius coeff_atm radii dr
  match bins with
  | some bs => bin_output lambda_grid depths bs
  | none => (lambda_grid, depths)

/-! ## Parameter validation and `compute_params`
(`platon/_atmosphere_solver.py`, lines 296-341). -/

/-- The exception kinds raised by `AtmosphereSolver._validate_params`:
`AtmosphereError` for out-of-grid temperatures, `ValueError` for the other
bound checks. -/
inductive SolverError where
  | atmosphereError : SolverError
  | valueError : SolverError
deriving DecidableEq

/-- The solver fields `_validate_params` reads: the tabulation grids, the
abundance-store metallicity/C-O grids, and the abundance store's minimum
temperature (constructor lines 53-65). -/
structure SolverCfg where
  T_grid : List ℚ
  P_grid : List ℚ
  logZs : List ℚ
  CO_ratios : List ℚ
  abundance_min_temperature : ℚ
deriving DecidableEq

/-- Constructor line 64: `min_temperature = max(np.min(T_grid),
abundance_getter.min_temperature)`. -/
def SolverCfg.min_temperature (cfg : SolverCfg) : ℚ :=
  max (listMin cfg.T_grid) cfg.abundance_min_temperature

/-- Constructor line 65: `max_temperature = np.max(T_grid)`. -/
def SolverCfg.max_temperature (cfg : SolverCfg) : ℚ :=
  listMax cfg.T_grid

/-- Embeds `_validate_params` lines 297-314: the temperature-profile bounds check and
the logZ / C-O ratio bound checks (a `None` bound argument skips its check). -/
def validate_front (cfg : SolverCfg) (T_profile : List ℚ)
    (logZ CO_ratio : Option ℚ) : Except SolverError Unit :=
  if listMin T_profile < cfg.min_temperature ∨ listMax T_profile > cfg.max_temperature then
    .error .atmosphereError
  else
    match logZ with
    | some z =>
        if z < listMin cfg.logZs ∨ z > listMax cfg.logZs then .error .valueError
        else
          match CO_ratio with
          | some co =>
              if co < listMin cfg.CO_ratios ∨ co > listMax cfg.CO_ratios then
                .error .valueError
              else .ok ()
          | none => .ok ()
    | none =>
        match CO_ratio with
        | some co =>
            if co < listMin cfg.CO_ratios ∨ co > listMax cfg.CO_ratios then
              .error .valueError
            else .ok ()
        | none => .ok ()

/-- Embeds `_validate_params` lines 316-322: the cloud-top pressure bounds check,
skipped entirely when the requested pressure is `np.inf` (`none`). -/
def validate_cloudtop (P_grid : List ℚ) (cloudtop : Option ℚ) : Except SolverError Unit :=
  match cloudtop with
  | none => .ok ()
  | some c =>
      if c ≤ listMin P_grid ∨ c > listMax P_grid then .error .valueError
      else .ok ()

/-- Embeds `AtmosphereSolver._validate_params` (lines 296-322): the in-order
composition of the profile/bounds checks and the cloud-top check. -/
def validate_params (cfg : SolverCfg) (T_profile : List ℚ)
    (logZ CO_ratio cloudtop : Option ℚ) : Except SolverError Unit :=
  match validate_front cfg T_profile logZ CO_ratio with
  | .error e => .error e
  | .ok _ => validate_cloudtop cfg.P_grid cloudtop

/-- Embeds `AtmosphereSolver.compute_params` (lines 325-399): `_validate_params` runs
first (line 339); everything after it — abundance interpolation, hydrostatic
structure solving, opacity synthesis — is abstracted as the function `heavy`,
universally quantified in the theorems, which is reached only when validation
succeeds. -/
def compute_params {α : Type} (cfg : SolverCfg)
    (heavy : List ℚ → Option ℚ → Option ℚ → Option ℚ → α)
    (T_profile : List ℚ) (logZ CO_ratio cloudtop : Option ℚ) : Except SolverError α :=
  match validate_params cfg T_profile logZ CO_ratio cloudtop with
  | .error e => .error e
  | .ok _ => .ok (heavy T_profile logZ CO_ratio cloudtop)

/-! ## Wavelength binner state machines
`TransitDepthCalculator.change_wavelength_bins` (transit_depth_calculator.py,
lines 36-56) and `AtmosphereSolver.change_wavelength_bins`
(platon/_atmosphere_solver.py, lines 76-129).  Tables are modelled along their
wavelength axis: one rational per native wavelength. -/

/-- Line 43 of transit_depth_calculator.py / lines 118-120 of
_atmosphere_solver.py: a native wavelength is kept when it lies strictly inside
some bin, `np.any([grid > start and grid < end for bins])`. -/
def strict_bin_cond (grid : List ℚ) (bins : List (ℚ × ℚ)) : List Bool :=
  grid.map (fun l => bins.any (fun b => decide (b.1 < l) && decide (l < b.2)))

/-- The wavelength-indexed state of a `TransitDepthCalculator`. -/
structure TDCState where
  wavelength_rebinned : Bool
  lambda_grid : List ℚ
  absorption_data : List (String × List ℚ)
  collisional_data : List ((String × String) × List ℚ)
  wavelength_bins : Option (List (ℚ × ℚ))
deriving DecidableEq

/-- Embeds `TransitDepthCalculator.change_wavelength_bins` (lines 36-56): raises
`NotImplementedError` when already rebinned, else records the bins and filters
every wavelength-indexed table to the union of the open bin interiors. -/
def TDCState.change_wavelength_bins (s : TDCState) (bins : List (ℚ × ℚ)) :
    Except String TDCState :=
  if s.wavelength_rebinned then .error "Multiple re-binnings not yet supported"
  else
    let cond := strict_bin_cond s.lambda_grid bins
    .ok { wavelength_rebinned := true
          wavelength_bins := some bins
          lambda_grid := maskSelect s.lambda_grid cond
          absorption_data := s.absorption_data.map (fun kv => (kv.1, maskSelect kv.2 cond))
          collisional_data := s.collisional_data.map (fun kv => (kv.1, maskSelect kv.2 cond)) }

/-- The wavelength-indexed state of an `AtmosphereSolver`.  The `orig_*` fields
are the tables the constructor loads from disk: `self.arguments` (line 27)
lets `change_wavelength_bins` re-run `__init__` (line 96), which deterministically
restores them. -/
structure ASState where
  wavelength_rebinned : Bool
  lambda_grid : List ℚ
  absorption_data : List (String × List ℚ)
  collisional_data : List ((String × String) × List ℚ)
  wavelength_bins : Option (List (ℚ × ℚ))
  orig_lambda_grid : List ℚ
  orig_absorption_data : List (String × List ℚ)
  orig_collisional_data : List ((String × String) × List ℚ)
deriving DecidableEq

/-- Embeds `self.__init__(**self.arguments)` (line 96): reconstruction restores every
wavelength-indexed table from the original on-disk data and clears the binned
flag. -/
def ASState.reinit (s : ASState) : ASState :=
  { s with wavelength_rebinned := false
           wavelength_bins := none
           lambda_grid := s.orig_lambda_grid
           absorption_data := s.orig_absorption_data
           collisional_data := s.orig_collisional_data }

/-- Lines 102-113: each bin must lie within the native grid bounds and contain
at least one native point strictly inside (the at-most-5-points warning is a
print, not an error). -/
def ASState.validate_bins (grid : List ℚ) : List (ℚ × ℚ) → Except String Unit
  | [] => .ok ()
  | b :: rest =>
      if b.1 < listMin grid ∨ b.1 > listMax grid ∨ b.2 < listMin grid ∨ b.2 > listMax grid then
        .error "Invalid wavelength bin"
      else if (maskSelect grid (strict_bin_cond grid [b])).length = 0 then
        .error "Wavelength bin too narrow"
      else ASState.validate_bins grid rest

/-- Embeds `AtmosphereSolver.change_wavelength_bins` (lines 76-129): an already-binned
instance is first reconstructed to its unbinned state (lines 95-97); `None`
bins stop there (lines 99-100); otherwise the bins are validated and every
wavelength-indexed table is filtered to the union of the open bin interiors. -/
def ASState.change_wavelength_bins (s : ASState) (bins : Option (List (ℚ × ℚ))) :
    Except String ASState :=
  let s' := if s.wavelength_rebinned then s.reinit else s
  match bins with
  | none => .ok s'
  | some bs =>
      match ASState.validate_bins s'.lambda_grid bs with
      | .error e => .error e
      | .ok _ =>
          let cond := strict_bin_cond s'.lambda_grid bs
          .ok { s' with
                wavelength_rebinned := true
                wavelength_bins := some bs
                lambda_grid := maskSelect s'.lambda_grid cond
                absorption_data := s'.absorption_data.map (fun kv => (kv.1, maskSelect kv.2 cond))
                collisional_data := s'.collisional_data.map (fun kv => (kv.1, maskSelect kv.2 cond)) }

/-! ## Opacity synthesis with in-place table flooring
`AtmosphereSolver._get_gas_absorption` (lines 192-205) and
`_get_collisional_absorption` (lines 219-243).  Both are modelled at a single
atmospheric layer (the loop over layers is pointwise and the table mutation is
layer-independent); the scipy log-space interpolation `10 ** interpn(...)` /
`10 ** interp1d(...)` is the parameter `interpEval`, applied to the (floored)
stored table. -/

/-- Lines 198-199 / 226-227: `table[table < min_absorption] = min_absorption`,
the in-place floor applied to a stored table. -/
def floor_table (minAbs : ℚ) (t : List ℚ) : List ℚ :=
  t.map (fun x => if x < minAbs then minAbs else x)

/-- One iteration of the species loop of `_get_gas_absorption` (lines 196-203):
species absent from the absorption tables are skipped; present species have
their stored table floored in place and contribute
`abundance * 10**interpn(log-grids, log-table, query)` to the coefficient. -/
def gas_step (interpEval : List ℚ → ℚ) (minAbs : ℚ)
    (acc : List (String × List ℚ) × ℚ) (sp : String × ℚ) :
    List (String × List ℚ) × ℚ :=
  match acc.1.lookup sp.1 with
  | none => acc
  | some t =>
      let t2 := floor_table minAbs t
      (acc.1.map (fun kv => if kv.1 = sp.1 then (kv.1, t2) else kv),
       acc.2 + sp.2 * interpEval t2)

/-- Embeds `AtmosphereSolver._get_gas_absorption` (lines 192-205) as a state
transformer: returns the (possibly mutated) absorption tables together with
the synthesized coefficient. -/
def get_gas_absorption_state (interpEval : List ℚ → ℚ) (minAbs : ℚ)
    (absorption_data : List (String × List ℚ)) (atm_abundances : List (String × ℚ)) :
    List (String × List ℚ) × ℚ :=
  atm_abundances.foldl (gas_step interpEval minAbs) (absorption_data, 0)

/-- One iteration of the pair loop of `_get_collisional_absorption`
(lines 224-241): pairs with both species in the mixture have their stored
table floored in place and contribute `10**interp1d(...) * n1 * n2`
(`n1 = abundance1 * n`, `n2 = abundance2 * n`). -/
def cia_step (interpEval : List ℚ → ℚ) (minAbs n : ℚ) (atm : List (String × ℚ))
    (acc : List ((String × String) × List ℚ) × ℚ)
    (kv : (String × String) × List ℚ) :
    List ((String × String) × List ℚ) × ℚ :=
  match atm.lookup kv.1.1, atm.lookup kv.1.2 with
  | some a1, some a2 =>
      let t2 := floor_table minAbs kv.2
      (acc.1 ++ [(kv.1, t2)], acc.2 + interpEval t2 * (a1 * n) * (a2 * n))
  | _, _ => (acc.1 ++ [kv], acc.2)

/-- Embeds `AtmosphereSolver._get_collisional_absorption` (lines 219-243) as a state
transformer over the collisional-pair table (`n` is the layer number density
`P/(k_B T)`). -/
def get_collisional_absorption_state (interpEval : List ℚ → ℚ) (minAbs n : ℚ)
    (cia_data : List ((String × String) × List ℚ)) (atm : List (String × ℚ)) :
    List ((String × String) × List ℚ) × ℚ :=
  cia_data.foldl (cia_step interpEval minAbs n atm) ([], 0)

/-! ## Retrieval bounds checking
`fit_info.py` and `retrieve.py`. -/

/-- Embeds `FitParam` (fit_info.py, lines 3-12): a fit parameter with its hard limits. -/
structure FitParam where
  low_lim : ℚ
  high_lim : ℚ
deriving DecidableEq

/-- Embeds `FitParam.within_limits` (lines 11-12):
`value > self.low_lim and value < self.high_lim` — strict on both sides. -/
def FitParam.within_limits (p : FitParam) (value : ℚ) : Bool :=
  decide (p.low_lim < value) && decide (value < p.high_lim)

/-- Embeds `FitInfo.within_limits` (lines 49-57): raises on a length mismatch
(modelled as `none`), else every component must be strictly inside its limits. -/
def FitInfo.within_limits (fit_params : List FitParam) (arr : List ℚ) : Option Bool :=
  if arr.length ≠ fit_params.length then none
  else some ((fit_params.zip arr).all (fun p => p.1.within_limits p.2))

/-- Embeds `Retriever.ln_prob` (retrieve.py, lines 17-47): out-of-limits proposals
return `-np.inf` (modelled as `none` in the result) before the forward model
runs; otherwise the rest of the evaluation — parameter interpretation, the
secondary bound checks and the `compute_depths` call — is the universally
quantified function `rest`.  A length mismatch propagates the
`within_limits` exception (`Except.error`). -/
def ln_prob (fit_params : List FitParam) (rest : List ℚ → Option ℚ)
    (arr : List ℚ) : Except Unit (Option ℚ) :=
  match FitInfo.within_limits fit_params arr with
  | none => .error ()
  | some false => .ok none
  | some true => .ok (rest arr)

/-! ## Abundance store interpolation
`AbundanceGetter.interp` (abundance_getter.py, lines 60-66).  Each per-species
abundance grid is a flattened (T,P) table; `scipy.interpolate.interp1d` along
the metallicity axis is piecewise-linear interpolation, applied elementwise to
the grids. -/

/-- Piecewise-linear 1-D interpolation (`scipy.interpolate.interp1d`) on
strictly increasing nodes: on the segment ending at the second node the value
is the linear blend, otherwise recurse into the remaining segments. -/
def interp_point : List ℚ → List ℚ → ℚ → ℚ
  | x0 :: x1 :: xs, y0 :: y1 :: ys, x =>
      if x ≤ x1 then y0 + (x - x0) * (y1 - y0) / (x1 - x0)
      else interp_point (x1 :: xs) (y1 :: ys) x
  | _, _, _ => 0

/-- Embeds `interp1d(metallicities, grids, axis=0)(m)`: elementwise piecewise-linear
interpolation of a stack of equal-length grids. -/
def interp_grid (ms : List ℚ) (grids : List (List ℚ)) (m : ℚ) : List ℚ :=
  (List.range (grids.headD []).length).map (fun j =>
    interp_point ms (grids.map (fun g => g.getD j 0)) m)

/-- Embeds `AbundanceGetter.interp` (lines 60-66): for each species key of the first
stored dictionary, stack that species' grids across the stored metallicities
and interpolate the stack at the query metallicity. -/
def AbundanceGetter.interp (ms : List ℚ) (abunds : List (List (String × List ℚ)))
    (m : ℚ) : List (String × List ℚ) :=
  (abunds.headD []).map (fun kv =>
    (kv.1, interp_grid ms (abunds.map (fun d => (d.lookup kv.1).getD [])) m))

/-! ## Helper lemmas -/

/-- Pointwise form of the numpy expression
`(1 - exp(-tau)).dot(r * dr)`: it is the sum over zipped triples. -/
theorem zipWith_mul_map_eq (f : ℚ → ℚ) :
    ∀ (row r dr : List ℚ),
      List.zipWith (fun a b => a * b) (row.map f) (List.zipWith (fun a b => a * b) r dr) =
        (row.zip (r.zip dr)).map (fun p => f p.1 * (p.2.1 * p.2.2))
  | [], _, _ => by simp
  | _ :: _, [], _ => by simp
  | _ :: _, _ :: _, [] => by simp
  | t :: row, a :: r, b :: dr => by
      simp [zipWith_mul_map_eq f row r dr]

/-- Out-of-range and in-range defaulted indexing into an all-zero list is zero. -/
theorem getD_zero_of_all_zero (l : List ℚ) (h : ∀ x ∈ l, x = 0) (j : ℕ) :
    l.getD j 0 = 0 := by
  by_cases hj : j < l.length
  · rw [List.getD_eq_getElem l 0 hj]
    exact h _ (List.getElem_mem hj)
  · exact List.getD_eq_default l 0 (le_of_not_lt hj)

/-- Every slant optical depth vanishes when the absorption coefficient vanishes
at every layer, whatever the radii and the square-root implementation. -/
theorem tau_all_zero (S : ℚ → ℚ) (absorb radii : List ℚ) (h : ∀ x ∈ absorb, x = 0) :
    ∀ t ∈ get_line_of_sight_tau S absorb radii, t = 0 := by
  intro t ht
  unfold get_line_of_sight_tau at ht
  simp only [List.mem_map] at ht
  obtain ⟨i, _, rfl⟩ := ht
  apply List.sum_eq_zero
  intro y hy
  simp only [List.mem_map] at hy
  obtain ⟨j, _, rfl⟩ := hy
  rw [getD_zero_of_all_zero absorb h j, zero_mul]

/-- Dot product with an all-zero left factor is zero. -/
theorem dotProduct_zero_left :
    ∀ (xs ys : List ℚ), (∀ x ∈ xs, x = 0) → dotProduct xs ys = 0
  | [], _, _ => by simp [dotProduct]
  | _ :: _, [], _ => by simp [dotProduct]
  | x :: xs, y :: ys, h => by
      have hx : x = 0 := h x (by simp)
      have ih := dotProduct_zero_left xs ys (fun a ha => h a (by simp [ha]))
      simp only [dotProduct, List.zipWith_cons_cons, List.sum_cons] at *
      rw [hx, zero_mul, ih, add_zero]

/-! ## C1 -/

/-- C1: at each native wavelength, the transit depth computed by
`compute_depths` (line 144) from the per-layer optical depths, layer radii and
thicknesses equals the spec formula
`(R_p/R_s)^2 + (2/R_s^2) * sum over layers of (1 - exp(-tau)) * r * dr`. -/
theorem C1_depth_formula (E : ℚ → ℚ) (planet_radius star_radius : ℚ)
    (tau_rows : List (List ℚ)) (r dr : List ℚ) :
    depths_from_tau E planet_radius star_radius tau_rows r dr =
      tau_rows.map (fun row => spec_depth_formula E planet_radius star_radius row r dr) := by
  unfold depths_from_tau spec_depth_formula dotProduct
  exact List.map_congr_left (fun row _ => by rw [zipWith_mul_map_eq])

/-! ## C5 -/

/-- C5: when the total absorption coefficient is zero at every layer and
wavelength, every optical depth is zero, and the computed transit depth at
every wavelength is exactly `(R_p/R_s)^2` (using `exp 0 = 1`). -/
theorem C5_zero_absorption (E S : ℚ → ℚ) (hE : E 0 = 1)
    (planet_radius star_radius : ℚ) (coeff_rows : List (List ℚ)) (radii dr : List ℚ)
    (hz : ∀ row ∈ coeff_rows, ∀ x ∈ row, x = 0) :
    depths_from_absorption E S planet_radius star_radius coeff_rows radii dr =
      coeff_rows.map (fun _ => (planet_radius / star_radius) ^ 2) := by
  unfold depths_from_absorption depths_from_tau
  rw [List.map_map]
  apply List.map_congr_left
  intro row hrow
  have htau := tau_all_zero S row radii (hz row hrow)
  have hmap : ∀ x ∈ (get_line_of_sight_tau S row radii).map (fun t => 1 - E (-t)), x = 0 := by
    intro x hx
    obtain ⟨t, ht, rfl⟩ := List.mem_map.1 hx
    rw [htau t ht, neg_zero, hE, sub_self]
  simp only [Function.comp]
  rw [dotProduct_zero_left _ _ hmap, mul_zero, add_zero]

/-- Witness for C5 at a concrete atmosphere with two layers and two wavelengths. -/
theorem C5_zero_absorption_witness :
    depths_from_absorption (fun _ => 1) (fun q => q) 2 5 [[0, 0], [0, 0]] [30, 20, 10] [1, 1] =
      [[(0:ℚ), 0], [0, 0]].map (fun _ => ((2:ℚ) / 5) ^ 2) :=
  C5_zero_absorption (fun _ => 1) (fun q => q) rfl 2 5 [[0, 0], [0, 0]] [30, 20, 10] [1, 1]
    (by decide)

/-- Cons step of boolean-mask selection. -/
theorem maskSelect_cons (x : ℚ) (xs : List ℚ) (b : Bool) (bs : List Bool) :
    maskSelect (x :: xs) (b :: bs) =
      if b then x :: maskSelect xs bs else maskSelect xs bs := by
  cases b <;> simp [maskSelect]

/-- Selecting by the half-open bin condition equals filtering the zipped
(wavelength, depth) pairs, projected back to each component. -/
theorem bin_select_eq (s e : ℚ) :
    ∀ (grid depths : List ℚ), grid.length = depths.length →
      maskSelect grid (bin_cond grid s e) = (binContrib grid depths s e).map (fun p => p.1) ∧
        maskSelect depths (bin_cond grid s e) = (binContrib grid depths s e).map (fun p => p.2)
  | [], [], _ => by simp [maskSelect, bin_cond, binContrib]
  | [], _ :: _, h => by simp at h
  | _ :: _, [], h => by simp at h
  | l :: ls, d :: ds, h => by
      have ih := bin_select_eq s e ls ds (by simpa using h)
      have hcond : bin_cond (l :: ls) s e = decide (s ≤ l ∧ l < e) :: bin_cond ls s e := rfl
      have hcontrib : binContrib (l :: ls) (d :: ds) s e =
          if (s ≤ l ∧ l < e) then (l, d) :: binContrib ls ds s e else binContrib ls ds s e := by
        simp [binContrib, List.filter_cons]
      by_cases hc : s ≤ l ∧ l < e
      · constructor <;>
          rw [hcond, maskSelect_cons, hcontrib, if_pos hc, decide_eq_true hc, if_pos rfl] <;>
          simp [ih.1, ih.2]
      · constructor <;>
          rw [hcond, maskSelect_cons, hcontrib, if_neg hc, decide_eq_false hc] <;>
          simp [ih.1, ih.2]

/-- Recasts `bin_output` (the numpy mask-and-mean code of lines 150-155) as the
spec's per-bin arithmetic means over contributing grid points. -/
theorem bin_output_spec (grid D : List ℚ) (bs : List (ℚ × ℚ)) (h : grid.length = D.length) :
    bin_output grid D bs =
      (bs.map (fun b => specBinWavelength grid D b.1 b.2),
       bs.map (fun b => specBinDepth grid D b.1 b.2)) := by
  unfold bin_output specBinWavelength specBinDepth
  rw [Prod.ext_iff]
  constructor <;> simp only [] <;>
    refine List.map_congr_left (fun b _ => ?_) <;>
    first
    | rw [(bin_select_eq b.1 b.2 grid D h).1]
    | rw [(bin_select_eq b.1 b.2 grid D h).2]

/-! ## C6 -/

/-- C6: when a wavelength bin set is active, `compute_depths` returns, for
each bin, the arithmetic mean of the native-grid depths whose wavelength lies
in the half-open interval from the bin start (inclusive) to the bin end
(exclusive), and the arithmetic mean of the contributing native wavelengths —
where the native depths are those the same call would return unbinned. -/
theorem C6_binned_depths (E S : ℚ → ℚ)
    (cond_fn : List ℚ → List ℚ → Option ℚ → List Bool)
    (absorb_fn : List Bool → List Bool → List (List ℚ))
    (interp_fn : List (List ℚ) → List ℚ → List ℚ → List ℚ → List ℚ → List (List ℚ))
    (star_radius g : ℚ) (lambda_grid P_grid T_grid : List ℚ)
    (bs : List (ℚ × ℚ)) (planet_radius : ℚ) (P T mu : List ℚ) (cloudtop : Option ℚ)
    (h : lambda_grid.length = (compute_depths E S cond_fn absorb_fn interp_fn star_radius g
      lambda_grid P_grid T_grid none planet_radius P T mu cloudtop).2.length) :
    compute_depths E S cond_fn absorb_fn interp_fn star_radius g lambda_grid P_grid T_grid
        (some bs) planet_radius P T mu cloudtop =
      (bs.map (fun b => specBinWavelength lambda_grid
          (compute_depths E S cond_fn absorb_fn interp_fn star_radius g lambda_grid P_grid
            T_grid none planet_radius P T mu cloudtop).2 b.1 b.2),
       bs.map (fun b => specBinDepth lambda_grid
          (compute_depths E S cond_fn absorb_fn interp_fn star_radius g lambda_grid P_grid
            T_grid none planet_radius P T mu cloudtop).2 b.1 b.2)) := by
  have hrw : compute_depths E S cond_fn absorb_fn interp_fn star_radius g lambda_grid P_grid
      T_grid (some bs) planet_radius P T mu cloudtop =
      bin_output lambda_grid (compute_depths E S cond_fn absorb_fn interp_fn star_radius g
        lambda_grid P_grid T_grid none planet_radius P T mu cloudtop).2 bs := rfl
  rw [hrw]
  exact bin_output_spec _ _ _ h

/-- Witness for C6 on a one-point grid with one bin containing it. -/
theorem C6_binned_depths_witness :
    compute_depths (fun _ => 1) (fun q => q) (fun _ _ _ => []) (fun _ _ => [])
        (fun _ _ _ _ _ => [[1]]) 5 10 [3] [1] [1] (some [(2, 4)]) 2 [1] [300] [2] none =
      ([(2, 4)].map (fun b => specBinWavelength [3]
          (compute_depths (fun _ => 1) (fun q => q) (fun _ _ _ => []) (fun _ _ => [])
            (fun _ _ _ _ _ => [[1]]) 5 10 [3] [1] [1] none 2 [1] [300] [2] none).2 b.1 b.2),
       [(2, 4)].map (fun b => specBinDepth [3]
          (compute_depths (fun _ => 1) (fun q => q) (fun _ _ _ => []) (fun _ _ => [])
            (fun _ _ _ _ _ => [[1]]) 5 10 [3] [1] [1] none 2 [1] [300] [2] none).2 b.1 b.2)) :=
  C6_binned_depths (fun _ => 1) (fun q => q) (fun _ _ _ => []) (fun _ _ => [])
    (fun _ _ _ _ _ => [[1]]) 5 10 [3] [1] [1] [(2, 4)] 2 [1] [300] [2] none rfl

/-! ## C10 -/

/-- C10: the retrieval bounds check is strict on both sides: an array of the
correct length with any component exactly equal to its lower or upper limit
makes `FitInfo.within_limits` return False, and `ln_prob` then returns
negative infinity (`none`) whatever the forward-model evaluation would be. -/
theorem C10_strict_bounds (fit_params : List FitParam) (arr : List ℚ)
    (hlen : arr.length = fit_params.length)
    (hb : ∃ p ∈ fit_params.zip arr, p.2 = p.1.low_lim ∨ p.2 = p.1.high_lim) :
    FitInfo.within_limits fit_params arr = some false ∧
      ∀ rest : List ℚ → Option ℚ, ln_prob fit_params rest arr = .ok none := by
  have hw : FitInfo.within_limits fit_params arr = some false := by
    unfold FitInfo.within_limits
    rw [if_neg (by simp [hlen])]
    congr 1
    rw [List.all_eq_false]
    obtain ⟨p, hp, hor⟩ := hb
    refine ⟨p, hp, ?_⟩
    unfold FitParam.within_limits
    rcases hor with h1 | h1 <;> simp [h1]
  refine ⟨hw, fun rest => ?_⟩
  unfold ln_prob
  rw [hw]

/-- Witness for C10: a proposal exactly at the lower limit of its parameter. -/
theorem C10_strict_bounds_witness :
    FitInfo.within_limits [⟨0, 1⟩] [0] = some false ∧
      ln_prob [⟨0, 1⟩] (fun _ => some 5) [0] = .ok none := by
  have h := C10_strict_bounds [⟨0, 1⟩] [0] rfl ⟨(⟨0, 1⟩, (0 : ℚ)), by simp, Or.inl rfl⟩
  exact ⟨h.1, h.2 _⟩

/-! ## C3 -/

/-- C3 counterexample: an `AtmosphereSolver` that is already in the binned
state (here: previously binned to (1,3), native grid reduced to [2]) accepts a
second `change_wavelength_bins` call without any error and returns a state with
the new bins applied — refuting the claim that a second call fails unless the
caller first resets the instance. -/
theorem C3_counterexample :
    (ASState.mk true [2] [("A", [20])] [(("H2", "H2"), [6])] (some [(1, 3)])
        [1, 2, 3, 4] [("A", [10, 20, 30, 40])] [(("H2", "H2"), [5, 6, 7, 8])]).wavelength_rebinned
        = true ∧
      ASState.change_wavelength_bins
        (ASState.mk true [2] [("A", [20])] [(("H2", "H2"), [6])] (some [(1, 3)])
          [1, 2, 3, 4] [("A", [10, 20, 30, 40])] [(("H2", "H2"), [5, 6, 7, 8])])
        (some [(2, 4)]) =
      .ok (ASState.mk true [3] [("A", [30])] [(("H2", "H2"), [7])] (some [(2, 4)])
          [1, 2, 3, 4] [("A", [10, 20, 30, 40])] [(("H2", "H2"), [5, 6, 7, 8])]) := by
  refine ⟨rfl, ?_⟩
  rfl

/-- C3 amended: the `TransitDepthCalculator` variant does fail with
`NotImplementedError` on any second binning call; the `AtmosphereSolver`
variant does not fail — a call on an already-binned instance behaves exactly
as the same call on the instance internally reset (reconstructed) to its
original unbinned table state, and then applies the new bins. -/
theorem C3_amended :
    (∀ (s : TDCState) (bins : List (ℚ × ℚ)), s.wavelength_rebinned = true →
        s.change_wavelength_bins bins = .error "Multiple re-binnings not yet supported") ∧
      ∀ (s : ASState) (bins : Option (List (ℚ × ℚ))), s.wavelength_rebinned = true →
        s.change_wavelength_bins bins = s.reinit.change_wavelength_bins bins := by
  constructor
  · intro s bins h
    unfold TDCState.change_wavelength_bins
    rw [h]
    rfl
  · intro s bins h
    unfold ASState.change_wavelength_bins
    rw [h]
    simp [ASState.reinit]

/-- Witness for C3 amended, on the concrete binned states of both variants. -/
theorem C3_amended_witness :
    TDCState.change_wavelength_bins (TDCState.mk true [1, 2] [] [] none) [(1, 2)] =
        .error "Multiple re-binnings not yet supported" ∧
      ASState.change_wavelength_bins
          (ASState.mk true [2] [("A", [20])] [(("H2", "H2"), [6])] (some [(1, 3)])
            [1, 2, 3, 4] [("A", [10, 20, 30, 40])] [(("H2", "H2"), [5, 6, 7, 8])])
          (some [(2, 4)]) =
        ASState.change_wavelength_bins
          (ASState.reinit
            (ASState.mk true [2] [("A", [20])] [(("H2", "H2"), [6])] (some [(1, 3)])
              [1, 2, 3, 4] [("A", [10, 20, 30, 40])] [(("H2", "H2"), [5, 6, 7, 8])]))
          (some [(2, 4)]) :=
  ⟨C3_amended.1 _ _ rfl, C3_amended.2 _ _ rfl⟩

/-! ## C2 -/

/-- Keys of an association list with no `lookup` hit never equal the query key. -/
theorem lookup_none_keys {β : Type} (k : String) (l : List (String × β))
    (h : l.lookup k = none) : ∀ kv ∈ l, kv.1 ≠ k := by
  induction l with
  | nil => simp
  | cons hd tl ih =>
    rw [List.lookup_cons] at h
    rcases hbe : k == hd.1 with _ | _
    · simp only [hbe] at h
      intro kv hkv
      rcases List.mem_cons.1 hkv with rfl | hkv
      · simp at hbe
        exact fun hk => hbe hk.symm
      · exact ih h kv hkv
    · exact absurd h (by simp [hbe])

/-- With nodup keys, `lookup` of a member's key returns that member's value. -/
theorem lookup_nodup_mem {β : Type} (l : List (String × β))
    (hn : (l.map (fun kv => kv.1)).Nodup) (kv : String × β) (hm : kv ∈ l) :
    l.lookup kv.1 = some kv.2 := by
  induction l with
  | nil => simp at hm
  | cons hd tl ih =>
    rw [List.lookup_cons]
    rcases List.mem_cons.1 hm with rfl | hm
    · simp
    · have hne : kv.1 ≠ hd.1 := by
        intro he
        have : hd.1 ∈ tl.map (fun kv => kv.1) := he ▸ List.mem_map.2 ⟨kv, hm, rfl⟩
        exact (List.nodup_cons.1 (by simpa using hn)).1 this
      have hbe : (kv.1 == hd.1) = false := by simp [hne]
      simp only [hbe]
      exact ih (List.nodup_cons.1 (by simpa using hn)).2 hm

/-- Flooring a table twice is the same as flooring it once. -/
theorem floor_table_idem (m : ℚ) (t : List ℚ) :
    floor_table m (floor_table m t) = floor_table m t := by
  unfold floor_table
  rw [List.map_map]
  apply List.map_congr_left
  intro x _
  by_cases h : x < m <;> simp [h, lt_irrefl]

/-- Keys are unchanged by the in-place update of one species' table. -/
theorem update_keys (st : List (String × List ℚ)) (nm : String) (t2 : List ℚ) :
    ((st.map (fun kv => if kv.1 = nm then (kv.1, t2) else kv)).map (fun kv => kv.1)) =
      st.map (fun kv => kv.1) := by
  rw [List.map_map]
  apply List.map_congr_left
  intro kv _
  by_cases h : kv.1 = nm <;> simp [h]

/-- The gas-absorption fold mutates the stored tables exactly by flooring the
tables of the species present in the mixture. -/
theorem gas_fold_tables (f : List ℚ → ℚ) (m : ℚ) :
    ∀ (atm : List (String × ℚ)) (st : List (String × List ℚ)) (c : ℚ),
      (st.map (fun kv => kv.1)).Nodup →
      (atm.foldl (gas_step f m) (st, c)).1 =
        st.map (fun kv =>
          if (atm.lookup kv.1).isSome then (kv.1, floor_table m kv.2) else kv) := by
  intro atm
  induction atm with
  | nil =>
    intro st c _
    simp
  | cons sp rest ih =>
    intro st c hn
    rw [List.foldl_cons]
    cases hlk : st.lookup sp.1 with
    | none =>
      have hstep : gas_step f m (st, c) sp = (st, c) := by
        unfold gas_step
        rw [hlk]
      rw [hstep, ih st c hn]
      apply List.map_congr_left
      intro kv hkv
      have hne : kv.1 ≠ sp.1 := lookup_none_keys sp.1 st hlk kv hkv
      have hbe : (kv.1 == sp.1) = false := by simp [hne]
      rw [List.lookup_cons]
      simp only [hbe]
    | some t =>
      have hstep : gas_step f m (st, c) sp =
          (st.map (fun kv => if kv.1 = sp.1 then (kv.1, floor_table m t) else kv),
           c + sp.2 * f (floor_table m t)) := by
        unfold gas_step
        rw [hlk]
      rw [hstep]
      rw [ih _ _ (by rw [update_keys]; exact hn)]
      rw [List.map_map]
      apply List.map_congr_left
      intro kv hkv
      by_cases he : kv.1 = sp.1
      · have hkvt : kv.2 = t := by
          have := lookup_nodup_mem st hn kv hkv
          rw [he, hlk] at this
          exact (Option.some.injEq _ _ ▸ this.symm :)
        have hbe : (kv.1 == sp.1) = true := by simp [he]
        rw [List.lookup_cons]
        simp only [Function.comp, he, if_pos rfl, hbe, Option.isSome_some, if_true, hkvt]
        by_cases hr : (rest.lookup kv.1).isSome <;> simp [he, hr, floor_table_idem]
      · have hbe : (kv.1 == sp.1) = false := by simp [he]
        rw [List.lookup_cons]
        simp only [Function.comp, if_neg he, hbe]

/-- The collisional-absorption fold mutates the pair table exactly by flooring
the entries of the pairs whose both species are present in the mixture. -/
theorem cia_fold_tables (f : List ℚ → ℚ) (m n : ℚ) (atm : List (String × ℚ)) :
    ∀ (cia : List ((String × String) × List ℚ))
      (acc : List ((String × String) × List ℚ)) (c : ℚ),
      (cia.foldl (cia_step f m n atm) (acc, c)).1 =
        acc ++ cia.map (fun kv =>
          if ((atm.lookup kv.1.1).isSome && (atm.lookup kv.1.2).isSome) = true
          then (kv.1, floor_table m kv.2) else kv) := by
  intro cia
  induction cia with
  | nil => intro acc c; simp
  | cons kv rest ih =>
    intro acc c
    rw [List.foldl_cons]
    cases h1 : atm.lookup kv.1.1 with
    | none =>
      have hstep : cia_step f m n atm (acc, c) kv = (acc ++ [kv], c) := by
        unfold cia_step
        rw [h1]
      rw [hstep, ih]
      simp [h1]
    | some a1 =>
      cases h2 : atm.lookup kv.1.2 with
      | none =>
        have hstep : cia_step f m n atm (acc, c) kv = (acc ++ [kv], c) := by
          unfold cia_step
          rw [h1, h2]
        rw [hstep, ih]
        simp [h1, h2]
      | some a2 =>
        have hstep : cia_step f m n atm (acc, c) kv =
            (acc ++ [(kv.1, floor_table m kv.2)], c + f (floor_table m kv.2) * (a1 * n) * (a2 * n)) := by
          unfold cia_step
          rw [h1, h2]
        rw [hstep, ih]
        simp [h1, h2]

/-- C2 counterexample: a single forward-model opacity-synthesis call mutates a
stored gas-absorption table: a table entry `0` for a requested species is
floored in place to `min_absorption = 1e-99`, so the solver's table after the
call differs from the table before it. -/
theorem C2_counterexample :
    (get_gas_absorption_state (fun _ => 0) (1 / 10 ^ 99) [("A", [0])] [("A", 1)]).1 ≠
      [("A", [0])] := by
  intro h
  have h0 : (0 : ℚ) < 1 / 10 ^ 99 := by norm_num
  have h1 : (get_gas_absorption_state (fun _ => (0 : ℚ)) (1 / 10 ^ 99)
      [("A", [0])] [("A", 1)]).1 = [("A", [1 / 10 ^ 99])] := by
    simp [get_gas_absorption_state, gas_step, floor_table, List.lookup_cons, h0]
  rw [h1] at h
  simp at h

/-- C2 amended: a forward-model evaluation does mutate the loaded opacity and
collisional tables, but only by the in-place floor
`table[table < min_absorption] = min_absorption` applied to the tables of the
species (respectively species pairs) present in the mixture; every other entry
and every other table field is unchanged, and the mutation is idempotent. -/
theorem C2_amended (f fc : List ℚ → ℚ) (m n : ℚ)
    (st : List (String × List ℚ)) (cia : List ((String × String) × List ℚ))
    (atm : List (String × ℚ)) (hn : (st.map (fun kv => kv.1)).Nodup) :
    (get_gas_absorption_state f m st atm).1 =
        st.map (fun kv =>
          if (atm.lookup kv.1).isSome then (kv.1, floor_table m kv.2) else kv) ∧
      (get_collisional_absorption_state fc m n cia atm).1 =
        cia.map (fun kv =>
          if ((atm.lookup kv.1.1).isSome && (atm.lookup kv.1.2).isSome) = true
          then (kv.1, floor_table m kv.2) else kv) :=
  ⟨gas_fold_tables f m atm st 0 hn, by simpa using cia_fold_tables fc m n atm cia [] 0⟩

/-- Witness for C2 amended on concrete two-species tables. -/
theorem C2_amended_witness :
    (get_gas_absorption_state (fun _ => 0) (1 / 10 ^ 99) [("A", [0]), ("B", [2])]
        [("A", 1)]).1 =
        [("A", [(0 : ℚ)]), ("B", [2])].map (fun kv =>
          if (List.lookup kv.1 [("A", (1 : ℚ))]).isSome
          then (kv.1, floor_table (1 / 10 ^ 99) kv.2) else kv) ∧
      (get_collisional_absorption_state (fun _ => 0) (1 / 10 ^ 99) 3
          [(("H2", "He"), [0])] [("A", 1)]).1 =
        [(("H2", "He"), [(0 : ℚ)])].map (fun kv =>
          if ((List.lookup kv.1.1 [("A", (1 : ℚ))]).isSome &&
              (List.lookup kv.1.2 [("A", (1 : ℚ))]).isSome) = true
          then (kv.1, floor_table (1 / 10 ^ 99) kv.2) else kv) :=
  C2_amended (fun _ => 0) (fun _ => 0) (1 / 10 ^ 99) 3 [("A", [0]), ("B", [2])]
    [(("H2", "He"), [0])] [("A", 1)] (by decide)

/-! ## C4 -/

/-- Prefix sums preserve length. -/
theorem cumsum_length : ∀ (l : List ℚ), (cumsum l).length = l.length
  | [] => rfl
  | x :: xs => by simp [cumsum, cumsum_length xs]

/-- Selecting with an all-true mask of sufficient length keeps the whole list. -/
theorem maskSelect_true : ∀ (xs : List ℚ) (k : ℕ), xs.length ≤ k →
    maskSelect xs (List.replicate k true) = xs
  | [], _, _ => by simp [maskSelect]
  | x :: xs, 0, h => by simp at h
  | x :: xs, k + 1, h => by
      rw [List.replicate_succ, maskSelect_cons]
      simp only [if_true]
      rw [maskSelect_true xs k (by simpa using h)]

/-- An infinite cloud-top pressure puts every layer above the clouds. -/
theorem above_clouds_none (P : List ℚ) :
    above_clouds P none = List.replicate P.length true := by
  simp [above_clouds]

/-- Length of the thickness tail under matching profile lengths. -/
theorem drTail_length (g : ℚ) :
    ∀ (P T mu : List ℚ), T.length = P.length → mu.length = P.length →
      (drTail g P T mu).length = P.length - 1
  | [], _, _, _, _ => rfl
  | [_], _, _, _, _ => rfl
  | p0 :: p1 :: ps, T, mu, h1, h2 => by
      rcases T with _ | ⟨t0, T2⟩
      · simp at h1
      rcases T2 with _ | ⟨t1, ts⟩
      · simp at h1
      rcases mu with _ | ⟨m0, mu2⟩
      · simp at h2
      rcases mu2 with _ | ⟨m1, ms⟩
      · simp at h2
      simp only [drTail, List.length_cons]
      rw [drTail_length g (p1 :: ps) (t1 :: ts) (m1 :: ms) (by simpa using h1)
        (by simpa using h2)]
      simp

/-- Length of the full thickness array under matching profile lengths. -/
theorem compute_dr_length (g : ℚ) (P T mu : List ℚ) (h1 : T.length = P.length)
    (h2 : mu.length = P.length) : (compute_dr g P T mu).length = P.length := by
  rcases P with _ | ⟨p0, ps⟩
  · rcases T with _ | _
    · rcases mu with _ | _ <;> rfl
    · simp at h1
  · rcases T with _ | ⟨t0, ts⟩
    · simp at h1
    rcases mu with _ | ⟨m0, ms⟩
    · simp at h2
    simp only [compute_dr, List.length_cons]
    rw [drTail_length g (p0 :: ps) (t0 :: ts) (m0 :: ms) h1 h2]
    simp

/-- C4: calling `compute_depths` with an infinite cloud-top pressure produces
exactly the same wavelength and depth output as the pipeline with clouds
disabled (no layer masked, no pressure limit), for any implementation of the
condition-array, opacity-synthesis and interpolation stages; and the infinite
cloud-top pressure is exempt from the cloud-top bounds validation of
`_validate_params`. -/
theorem C4_inf_cloudtop (E S : ℚ → ℚ)
    (cond_fn : List ℚ → List ℚ → Option ℚ → List Bool)
    (absorb_fn : List Bool → List Bool → List (List ℚ))
    (interp_fn : List (List ℚ) → List ℚ → List ℚ → List ℚ → List ℚ → List (List ℚ))
    (star_radius g : ℚ) (lambda_grid P_grid T_grid : List ℚ)
    (bins : Option (List (ℚ × ℚ))) (planet_radius : ℚ) (P T mu : List ℚ)
    (hT : T.length = P.length) (hmu : mu.length = P.length) :
    compute_depths E S cond_fn absorb_fn interp_fn star_radius g lambda_grid P_grid T_grid
        bins planet_radius P T mu none =
      compute_depths_no_clouds E S cond_fn absorb_fn interp_fn star_radius g lambda_grid
        P_grid T_grid bins planet_radius P T mu ∧
      ∀ (cfg : SolverCfg) (T_prof : List ℚ) (logZ CO : Option ℚ),
        validate_params cfg T_prof logZ CO none = validate_front cfg T_prof logZ CO := by
  constructor
  · have hdrlen : (compute_dr g P T mu).length = P.length := compute_dr_length g P T mu hT hmu
    have h1 : maskSelect P (above_clouds P none) = P := by
      rw [above_clouds_none]
      exact maskSelect_true P P.length le_rfl
    have h2 : maskSelect T (above_clouds P none) = T := by
      rw [above_clouds_none]
      exact maskSelect_true T P.length hT.le
    have h3 : maskSelect (compute_dr g P T mu) (above_clouds P none) = compute_dr g P T mu := by
      rw [above_clouds_none]
      exact maskSelect_true _ P.length hdrlen.le
    have h4 : maskSelect ((cumsum (compute_dr g P T mu)).map
        (fun c => (compute_dr g P T mu).sum + planet_radius - c)) (above_clouds P none) =
        (cumsum (compute_dr g P T mu)).map
          (fun c => (compute_dr g P T mu).sum + planet_radius - c) := by
      rw [above_clouds_none]
      exact maskSelect_true _ P.length (by rw [List.length_map, cumsum_length, hdrlen])
    simp only [compute_depths, compute_depths_no_clouds, get_above_cloud_r_and_dr]
    rw [h1, h2, h3, h4]
  · intro cfg T_prof logZ CO
    unfold validate_params
    cases h : validate_front cfg T_prof logZ CO with
    | error e => rfl
    | ok u => cases u; rfl

/-- Witness for C4 on a concrete two-layer profile and trivial stage functions. -/
theorem C4_inf_cloudtop_witness :
    (compute_depths (fun _ => 1) (fun q => q) (fun _ _ _ => []) (fun _ _ => [])
        (fun _ _ _ _ _ => [[1]]) 5 10 [3] [1, 10] [100, 3000] none 2 [1, 2] [10, 20] [2, 3]
        none =
      compute_depths_no_clouds (fun _ => 1) (fun q => q) (fun _ _ _ => []) (fun _ _ => [])
        (fun _ _ _ _ _ => [[1]]) 5 10 [3] [1, 10] [100, 3000] none 2 [1, 2] [10, 20] [2, 3]) ∧
      validate_params (SolverCfg.mk [100, 3000] [1, 10] [0] [1] 100) [200] none none none =
        validate_front (SolverCfg.mk [100, 3000] [1, 10] [0] [1] 100) [200] none none := by
  have h := C4_inf_cloudtop (fun _ => 1) (fun q => q) (fun _ _ _ => []) (fun _ _ => [])
    (fun _ _ _ _ _ => [[1]]) 5 10 [3] [1, 10] [100, 3000] none 2 [1, 2] [10, 20] [2, 3]
    rfl rfl
  exact ⟨h.1, h.2 _ _ _ _⟩

/-! ## C7 -/

/-- The seed of a max-fold bounds the fold from below. -/
theorem le_foldl_max : ∀ (xs : List ℚ) (a : ℚ), a ≤ xs.foldl max a
  | [], _ => le_rfl
  | x :: xs, a => le_trans (le_max_left a x) (le_foldl_max xs (max a x))

/-- Every member of a list bounds its max-fold from below. -/
theorem mem_le_foldl_max : ∀ (xs : List ℚ) (a x : ℚ), x ∈ xs → x ≤ xs.foldl max a
  | [], _, _, h => by simp at h
  | y :: ys, a, x, h => by
      rcases List.mem_cons.1 h with rfl | h
      · exact le_trans (le_max_right a x) (le_foldl_max ys (max a x))
      · exact mem_le_foldl_max ys (max a y) x h

/-- Every member of a nonempty list is at most its numpy max. -/
theorem mem_le_listMax (xs : List ℚ) (x : ℚ) (h : x ∈ xs) : x ≤ listMax xs := by
  rcases xs with _ | ⟨y, ys⟩
  · simp at h
  · rcases List.mem_cons.1 h with rfl | h
    · exact le_foldl_max ys x
    · exact mem_le_foldl_max ys y x h

/-- The seed of a min-fold bounds the fold from above. -/
theorem foldl_min_le : ∀ (xs : List ℚ) (a : ℚ), xs.foldl min a ≤ a
  | [], _ => le_rfl
  | x :: xs, a => le_trans (foldl_min_le xs (min a x)) (min_le_left a x)

/-- Every member of a list bounds its min-fold from above. -/
theorem foldl_min_le_mem : ∀ (xs : List ℚ) (a x : ℚ), x ∈ xs → xs.foldl min a ≤ x
  | [], _, _, h => by simp at h
  | y :: ys, a, x, h => by
      rcases List.mem_cons.1 h with rfl | h
      · exact le_trans (foldl_min_le ys (min a x)) (min_le_right a x)
      · exact foldl_min_le_mem ys (min a y) x h

/-- The numpy min of a nonempty list is at most every member. -/
theorem listMin_le_mem (xs : List ℚ) (x : ℚ) (h : x ∈ xs) : listMin xs ≤ x := by
  rcases xs with _ | ⟨y, ys⟩
  · simp at h
  · rcases List.mem_cons.1 h with rfl | h
    · exact foldl_min_le ys x
    · exact foldl_min_le_mem ys y x h

/-- C7: a temperature profile containing any value above the maximum (or below
the minimum) tabulated temperature-grid value makes `compute_params` fail with
the temperature domain error (`AtmosphereError`), for every downstream heavy
computation — so the failure happens before abundance interpolation, structure
solving or opacity synthesis is consulted. -/
theorem C7_temperature_domain_error {α : Type} (cfg : SolverCfg)
    (heavy : List ℚ → Option ℚ → Option ℚ → Option ℚ → α)
    (T_profile : List ℚ) (logZ CO cloudtop : Option ℚ)
    (h : (∃ t ∈ T_profile, listMax cfg.T_grid < t) ∨
         (∃ t ∈ T_profile, t < listMin cfg.T_grid)) :
    compute_params cfg heavy T_profile logZ CO cloudtop = .error .atmosphereError := by
  have hcond : listMin T_profile < cfg.min_temperature ∨
      listMax T_profile > cfg.max_temperature := by
    rcases h with ⟨t, ht, hgt⟩ | ⟨t, ht, hlt⟩
    · exact Or.inr (lt_of_lt_of_le hgt (mem_le_listMax T_profile t ht))
    · refine Or.inl (lt_of_le_of_lt (listMin_le_mem T_profile t ht) ?_)
      exact lt_of_lt_of_le hlt (le_max_left _ _)
  unfold compute_params validate_params validate_front
  rw [if_pos hcond]

/-- Witness for C7: a profile temperature exactly 1 K above the grid maximum. -/
theorem C7_temperature_domain_error_witness :
    compute_params (SolverCfg.mk [100, 3000] [1, 10] [0] [1] 100)
        (fun _ _ _ _ => (0 : ℚ)) [3001] none none none = .error .atmosphereError :=
  C7_temperature_domain_error (SolverCfg.mk [100, 3000] [1, 10] [0] [1] 100)
    (fun _ _ _ _ => (0 : ℚ)) [3001] none none none
    (Or.inl ⟨3001, by simp, by norm_num [listMax]⟩)

/-! ## C8 -/

/-- Positivity of the Boltzmann constant. -/
theorem k_B_pos : 0 < k_B := by norm_num [k_B]

/-- Positivity of the atomic mass unit. -/
theorem amu_pos : 0 < amu := by norm_num [amu]

/-- Every thickness in the tail is positive for an ascending positive pressure
profile with positive temperatures, weights and gravity. -/
theorem drTail_pos (g : ℚ) (hg : 0 < g) :
    ∀ (P T mu : List ℚ), List.Chain' (fun a b => a < b) P → (∀ p ∈ P, 0 < p) →
      (∀ t ∈ T, 0 < t) → (∀ m ∈ mu, 0 < m) → ∀ d ∈ drTail g P T mu, 0 < d
  | [], _, _, _, _, _, _, d, hd => absurd hd (List.not_mem_nil d)
  | [_], _, _, _, _, _, _, d, hd => absurd hd (List.not_mem_nil d)
  | p0 :: p1 :: ps, T, mu, hc, hp, ht, hm, d, hd => by
      rcases T with _ | ⟨t0, T2⟩
      · exact absurd hd (List.not_mem_nil d)
      rcases T2 with _ | ⟨t1, ts⟩
      · exact absurd hd (List.not_mem_nil d)
      rcases mu with _ | ⟨m0, mu2⟩
      · exact absurd hd (List.not_mem_nil d)
      rcases mu2 with _ | ⟨m1, ms⟩
      · exact absurd hd (List.not_mem_nil d)
      simp only [drTail] at hd
      rcases List.mem_cons.1 hd with rfl | hd
      · have hp1 : (0 : ℚ) < p1 := hp p1 (by simp)
        have hlt : p0 < p1 := (List.chain'_cons.1 hc).1
        have ht1 : (0 : ℚ) < t1 := ht t1 (by simp)
        have hm1 : (0 : ℚ) < m1 := hm m1 (by simp)
        exact div_pos (mul_pos (mul_pos (div_pos (sub_pos.2 hlt) hp1) k_B_pos) ht1)
          (mul_pos (mul_pos hm1 amu_pos) hg)
      · exact drTail_pos g hg (p1 :: ps) (t1 :: ts) (m1 :: ms) (List.chain'_cons.1 hc).2
          (fun p hp2 => hp p (List.mem_cons_of_mem _ hp2))
          (fun t ht2 => ht t (List.mem_cons_of_mem _ ht2))
          (fun m hm2 => hm m (List.mem_cons_of_mem _ hm2)) d hd

/-- Every layer thickness is positive under the physical hypotheses. -/
theorem compute_dr_pos (g : ℚ) (hg : 0 < g) (P T mu : List ℚ)
    (hc : List.Chain' (fun a b => a < b) P) (hp : ∀ p ∈ P, 0 < p)
    (ht : ∀ t ∈ T, 0 < t) (hm : ∀ m ∈ mu, 0 < m) :
    ∀ d ∈ compute_dr g P T mu, 0 < d := by
  intro d hd
  rw [compute_dr.eq_def] at hd
  split at hd
  · rename_i p0 ps t0 ts m0 ms
    rcases List.mem_cons.1 hd with rfl | hd
    · have ht0 : (0 : ℚ) < t0 := ht t0 (by simp)
      have hm0 : (0 : ℚ) < m0 := hm m0 (by simp)
      exact div_pos (mul_pos k_B_pos ht0) (mul_pos (mul_pos hm0 amu_pos) hg)
    · exact drTail_pos g hg _ _ _ hc hp ht hm d hd
  · simp at hd

/-- Prefix sums of a positive list are positive. -/
theorem cumsum_pos : ∀ (l : List ℚ), (∀ x ∈ l, 0 < x) → ∀ c ∈ cumsum l, 0 < c
  | [], _, c, hc => by simp [cumsum] at hc
  | x :: xs, h, c, hc => by
      rw [cumsum] at hc
      rcases List.mem_cons.1 hc with rfl | hc
      · exact h c (by simp)
      · obtain ⟨c0, hc0, rfl⟩ := List.mem_map.1 hc
        have hx : (0 : ℚ) < x := h x (by simp)
        have := cumsum_pos xs (fun a ha => h a (by simp [ha])) c0 hc0
        linarith

/-- Prefix sums of a positive list are strictly increasing (pairwise). -/
theorem cumsum_pairwise : ∀ (l : List ℚ), (∀ x ∈ l, 0 < x) →
    (cumsum l).Pairwise (fun a b => a < b)
  | [], _ => by simp [cumsum]
  | x :: xs, h => by
      rw [cumsum]
      refine List.pairwise_cons.2 ⟨?_, ?_⟩
      · intro b hb
        obtain ⟨c0, hc0, rfl⟩ := List.mem_map.1 hb
        have := cumsum_pos xs (fun a ha => h a (by simp [ha])) c0 hc0
        linarith
      · rw [List.pairwise_map]
        refine (cumsum_pairwise xs (fun a ha => h a (by simp [ha]))).imp ?_
        intro a b hab
        linarith

/-- Mask selection yields a sublist. -/
theorem maskSelect_sublist : ∀ (xs : List ℚ) (mask : List Bool),
    List.Sublist (maskSelect xs mask) xs
  | [], _ => by simp [maskSelect]
  | x :: xs, [] => by simp [maskSelect]
  | x :: xs, b :: bs => by
      rw [maskSelect_cons]
      cases b
      · simp only [Bool.false_eq_true, if_false]
        exact (maskSelect_sublist xs bs).cons x
      · simp only [if_true]
        exact (maskSelect_sublist xs bs).cons₂ x

/-- C8: for an ascending positive pressure profile with positive temperatures,
mean molecular weights and gravity, the radius array returned by
`get_above_cloud_r_and_dr` — the prepended top-of-atmosphere radius followed by
the masked per-layer radii — is strictly decreasing. -/
theorem C8_radii_decreasing (g planet_radius : ℚ) (P T mu : List ℚ) (mask : List Bool)
    (hg : 0 < g) (hasc : List.Chain' (fun a b => a < b) P)
    (hp : ∀ p ∈ P, 0 < p) (ht : ∀ t ∈ T, 0 < t) (hm : ∀ m ∈ mu, 0 < m) :
    ((get_above_cloud_r_and_dr g planet_radius P T mu mask).1).Pairwise
      (fun a b => b < a) := by
  have hdr := compute_dr_pos g hg P T mu hasc hp ht hm
  set dr := compute_dr g P T mu with hdrdef
  set R := dr.sum + planet_radius with hRdef
  have hradii : ((cumsum dr).map (fun c => R - c)).Pairwise (fun a b => b < a) := by
    rw [List.pairwise_map]
    exact (cumsum_pairwise dr hdr).imp (fun hab => by linarith)
  have hbound : ∀ r ∈ (cumsum dr).map (fun c => R - c), r < R := by
    intro r hr
    obtain ⟨c, hc, rfl⟩ := List.mem_map.1 hr
    have := cumsum_pos dr hdr c hc
    linarith
  unfold get_above_cloud_r_and_dr
  refine List.pairwise_cons.2 ⟨?_, ?_⟩
  · intro b hb
    exact hbound b ((maskSelect_sublist _ mask).subset hb)
  · exact hradii.sublist (maskSelect_sublist _ mask)

/-- Witness for C8 on a concrete two-layer atmosphere. -/
theorem C8_radii_decreasing_witness :
    ((get_above_cloud_r_and_dr 10 1000000 [1, 2] [300, 290] [2, 2]
        [true, true]).1).Pairwise (fun a b => b < a) :=
  C8_radii_decreasing 10 1000000 [1, 2] [300, 290] [2, 2] [true, true]
    (by norm_num) (by simp) (by simp) (by norm_num) (by norm_num)

/-! ## C9 -/

/-- Piecewise-linear interpolation on strictly increasing nodes reproduces the
stored value exactly at every node. -/
theorem interp_point_node :
    ∀ (xs ys : List ℚ), xs.Pairwise (fun a b => a < b) → ys.length = xs.length →
      2 ≤ xs.length → ∀ i, i < xs.length → interp_point xs ys (xs.getD i 0) = ys.getD i 0
  | [], _, _, _, h2, _, _ => by simp at h2
  | [_], _, _, _, h2, _, _ => by simp at h2
  | x0 :: x1 :: xt, ys, hp, hl, _, i, hi => by
      rcases ys with _ | ⟨y0, ys2⟩
      · simp at hl
      rcases ys2 with _ | ⟨y1, yt⟩
      · simp at hl
      have hx01 : x0 < x1 := (List.pairwise_cons.1 hp).1 x1 (by simp)
      match i with
      | 0 =>
          simp only [List.getD_cons_zero, interp_point]
          rw [if_pos (le_of_lt hx01)]
          simp
      | 1 =>
          simp only [List.getD_cons_succ, List.getD_cons_zero, interp_point]
          rw [if_pos le_rfl]
          have hne : x1 - x0 ≠ 0 := sub_ne_zero.2 (ne_of_gt hx01)
          field_simp
      | n + 2 =>
          simp only [List.getD_cons_succ]
          have hn : n < xt.length := by simpa using hi
          have hmem : xt.getD n 0 ∈ xt := by
            rw [List.getD_eq_getElem xt 0 hn]
            exact List.getElem_mem hn
          have hx1lt : x1 < xt.getD n 0 :=
            (List.pairwise_cons.1 (List.pairwise_cons.1 hp).2).1 _ hmem
          simp only [interp_point]
          rw [if_neg (not_le.2 hx1lt)]
          have hrec := interp_point_node (x1 :: xt) (y1 :: yt) (List.pairwise_cons.1 hp).2
            (by simpa using hl) (by simp only [List.length_cons]; omega) (n + 1)
            (by simpa using hn)
          simpa using hrec

/-- Indexing a list by its own range of positions reproduces the list. -/
theorem map_range_getD : ∀ (l : List ℚ), (List.range l.length).map (fun j => l.getD j 0) = l
  | [] => rfl
  | x :: xs => by
      rw [List.length_cons, List.range_succ_eq_map, List.map_cons]
      simp only [List.getD_cons_zero, List.map_map]
      congr 1
      have hcomp : ((fun j => (x :: xs).getD j 0) ∘ Nat.succ) = fun j => xs.getD j 0 := by
        funext j
        simp [List.getD_cons_succ]
      rw [hcomp, map_range_getD xs]

/-- Lookup through a key-preserving map whose values depend only on the key. -/
theorem lookup_map_key {β γ : Type} (l : List (String × β)) (f : String → γ) (k : String) :
    (l.map (fun kv => (kv.1, f kv.1))).lookup k = (l.lookup k).map (fun _ => f k) := by
  induction l with
  | nil => rfl
  | cons hd tl ih =>
    rcases hd with ⟨k0, v0⟩
    simp only [List.map_cons, List.lookup_cons]
    rcases hbe : k == k0 with _ | _
    · simp only [hbe, ih]
    · have hk : k = k0 := by simpa using hbe
      subst hk
      simp only [hbe]
      rfl

/-- Head of a mapped nonempty list with defaults. -/
theorem headD_map_of_ne_nil {α β : Type} (l : List α) (f : α → β) (d : α) (d2 : β)
    (h : l ≠ []) : (l.map f).headD d2 = f (l.headD d) := by
  rcases l with _ | ⟨a, tl⟩
  · exact absurd rfl h
  · rfl

/-- Defaulted indexing through a map evaluates the function at the indexed
element, for in-range indices. -/
theorem getD_map_eq {α β : Type} (l : List α) (f : α → β) (i : ℕ) (d : α) (d2 : β)
    (hi : i < l.length) : (l.map f).getD i d2 = f (l.getD i d) := by
  rw [List.getD_eq_getElem _ d2 (by simpa using hi), List.getD_eq_getElem _ d hi]
  simp

/-- C9: `AbundanceGetter.interp` queried exactly at the i-th stored metallicity
grid point returns, for every species, exactly the i-th stored per-species
abundance table (round-trip at grid nodes), given strictly increasing
metallicities and shape-consistent stored tables. -/
theorem C9_interp_roundtrip (ms : List ℚ) (abunds : List (List (String × List ℚ)))
    (i : ℕ) (k : String) (g0 gr : List ℚ)
    (hms : ms.Pairwise (fun a b => a < b)) (h2 : 2 ≤ ms.length)
    (hlen : abunds.length = ms.length) (hi : i < ms.length)
    (huniform : ∀ d ∈ abunds, ∀ key : String,
      ((d.lookup key).getD []).length = (((abunds.headD []).lookup key).getD []).length)
    (hhead : (abunds.headD []).lookup k = some g0)
    (hgr : (abunds.getD i []).lookup k = some gr) :
    (AbundanceGetter.interp ms abunds (ms.getD i 0)).lookup k = some gr := by
  unfold AbundanceGetter.interp
  rw [lookup_map_key (abunds.headD [])
    (fun key => interp_grid ms (abunds.map (fun d => (d.lookup key).getD [])) (ms.getD i 0)) k]
  rw [hhead]
  rw [show Option.map (fun _ => interp_grid ms
    (abunds.map (fun d => (d.lookup k).getD [])) (ms.getD i 0)) (some g0) =
    some (interp_grid ms (abunds.map (fun d => (d.lookup k).getD [])) (ms.getD i 0)) from rfl]
  congr 1
  have hiab : i < abunds.length := by rw [hlen]; exact hi
  have hmemi : abunds.getD i [] ∈ abunds := by
    rw [List.getD_eq_getElem abunds [] hiab]
    exact List.getElem_mem hiab
  have hglen : gr.length = g0.length := by
    have := huniform (abunds.getD i []) hmemi k
    rw [hgr, hhead] at this
    simpa using this
  have hne : abunds ≠ [] := by
    intro h0
    rw [h0] at hlen
    simp at hlen
    omega
  have hheadgrid : (abunds.map (fun d => (d.lookup k).getD [])).headD [] = g0 := by
    rw [headD_map_of_ne_nil abunds _ [] [] hne, hhead]
    rfl
  unfold interp_grid
  rw [hheadgrid]
  have hjfun : (fun j => interp_point ms
      ((abunds.map (fun d => (d.lookup k).getD [])).map (fun g2 => g2.getD j 0))
      (ms.getD i 0)) = fun j => gr.getD j 0 := by
    funext j
    have hstacklen : ((abunds.map (fun d => (d.lookup k).getD [])).map
        (fun g2 => g2.getD j 0)).length = ms.length := by
      simp [hlen]
    have hnode := interp_point_node ms
      ((abunds.map (fun d => (d.lookup k).getD [])).map (fun g2 => g2.getD j 0))
      hms hstacklen h2 i hi
    rw [hnode]
    have hmaplen : i < (abunds.map (fun d => (d.lookup k).getD [])).length := by
      simpa using hiab
    rw [getD_map_eq _ (fun g2 => g2.getD j 0) i [] 0 hmaplen]
    rw [getD_map_eq abunds (fun d => (d.lookup k).getD []) i [] [] hiab]
    rw [hgr]
    rfl
  rw [hjfun, ← hglen, map_range_getD gr]

/-- Witness for C9 on a concrete two-metallicity store with one species. -/
theorem C9_interp_roundtrip_witness :
    (AbundanceGetter.interp [1, 10] [[("H2O", [3, 4])], [("H2O", [5, 6])]]
        ([1, (10 : ℚ)].getD 1 0)).lookup "H2O" = some [5, 6] :=
  C9_interp_roundtrip [1, 10] [[("H2O", [3, 4])], [("H2O", [5, 6])]] 1 "H2O" [3, 4] [5, 6]
    (by norm_num) (by norm_num) rfl (by norm_num)
    (by
      intro d hd key
      rcases List.mem_cons.1 hd with rfl | hd
      · rfl
      · rcases List.mem_cons.1 hd with rfl | hd
        · rcases hbe : key == "H2O" with _ | _ <;>
            simp [List.lookup_cons, hbe]
        · simp at hd)
    rfl rfl

end Platon
